import Mathlib

/-!
Verification of the gpu-exporter collection engine (`src/main.go`).

The shallow embedding below translates `Collector.Collect` and its helper
loops from `main.go` into pure Lean functions.  The external collaborators
(the NVML binding `nvml` and the process-table library `ps`) are modelled by
an environment record whose fields return `Option` values: `none` stands for
the corresponding call failing (or, for `ps.FindProcess`, also returning a
nil process).  Go operations that panic or terminate the process
(out-of-range slices, nil-pointer dereferences, `os.Exit(-1)`) are modelled
by an explicit `Crash` error: `collect` returns `Except Crash CollectorState`.

Strings are modelled as lists of characters (`Name`); all inputs of interest
are ASCII, so Go's byte indexing coincides with character indexing.
-/

namespace GpuExporter

/-- A Go string, modelled as its list of characters. -/
abbrev Name := List Char

/-- `strings.Index(s, string(c))` for a single character: the index of the
first occurrence, as an `Option`. -/
def indexOfChar (c : Char) : Name → Option Nat
  | [] => none
  | a :: rest => if a = c then some 0 else (indexOfChar c rest).map (· + 1)

/-- `strings.Index` convention: first index of `c` in `s`, or `-1`. -/
def goIndex (s : Name) (c : Char) : Int :=
  match indexOfChar c s with
  | some n => (n : Int)
  | none => -1

/-- Go string slicing `s[lo:hi]`.  Returns `none` exactly when Go would
panic with "slice bounds out of range" (`lo < 0`, `hi < lo`, or
`hi > len(s)`). -/
def goSlice (s : Name) (lo hi : Int) : Option Name :=
  if 0 ≤ lo ∧ lo ≤ hi ∧ hi ≤ (s.length : Int) then
    some ((s.drop lo.toNat).take (hi - lo).toNat)
  else none

/-- `strings.Trim(s, " ")`: remove leading and trailing space characters
(trailing removed via reversal first; the two orders agree). -/
def trimSpaces (s : Name) : Name :=
  ((s.reverse.dropWhile (fun a => a = ' ')).reverse).dropWhile (fun a => a = ' ')

/-- The workload identity extracted from a process display name
(`container`, `namespace`, `pod`). -/
structure WorkloadIdentity where
  container : Name
  nameSpace : Name
  pod : Name
deriving Repr, DecidableEq

/-- The name-convention parsing of `main.go` lines 238-242 (identical code at
lines 277-281):

    at := strings.Index(pName, "@")
    slash := strings.Index(pName, "/")
    container := pName[0:at]
    nameSpace := pName[at+1 : slash]
    pod := strings.Trim(string(pName[slash+1:len(pName)-1]), " ")

`none` models the Go slice-bounds panic that occurs when a delimiter is
missing or out of order. -/
def resolveName (pName : Name) : Option WorkloadIdentity := do
  let atIdx := goIndex pName '@'
  let slashIdx := goIndex pName '/'
  let container ← goSlice pName 0 atIdx
  let nameSpace ← goSlice pName (atIdx + 1) slashIdx
  let podRaw ← goSlice pName (slashIdx + 1) ((pName.length : Int) - 1)
  some ⟨container, nameSpace, trimSpaces podRaw⟩

/-- `nvml.ProcessUtilization` (the fields used by `main.go`). -/
structure ProcessUtilization where
  PID : Nat
  DecUtil : Nat
  EncUtil : Nat
  MemUtil : Nat
  SmUtil : Nat
deriving Repr, DecidableEq

/-- The inner `k`-loop of `main.go` lines 259-266: overwrite the utilization
fields of a storage entry whose PID matches. -/
def utilOverwrite (u : ProcessUtilization) (s : ProcessUtilization) : ProcessUtilization :=
  if s.PID = u.PID then
    { s with DecUtil := u.DecUtil, EncUtil := u.EncUtil, MemUtil := u.MemUtil, SmUtil := u.SmUtil }
  else s

/-- `main.go` lines 253-268: allocate one zeroed record per entry of `pids`,
copy the pids in, then for each utilization entry with `PID != 0` overwrite
every storage entry with the same pid. -/
def mergeStorage (pids : List Nat) (procUtil : List ProcessUtilization) :
    List ProcessUtilization :=
  let storage := pids.map (fun p => ⟨p, 0, 0, 0, 0⟩)
  procUtil.foldl (fun st u => if u.PID ≠ 0 then st.map (utilOverwrite u) else st) storage

/-- A merged per-process record: a `mergeStorage` row together with the
memory value that `main.go` keeps index-aligned with the same pid (the
parallel slices `pids`/`mem` returned at line 226 and consumed at line
243). -/
structure MergedProcessRecord where
  pid : Nat
  mem : Nat
  DecUtil : Nat
  EncUtil : Nat
  MemUtil : Nat
  SmUtil : Nat
deriving Repr, DecidableEq

/-- `utilOverwrite` acting on a record that carries its memory value. -/
def mergedOverwrite (u : ProcessUtilization) (s : MergedProcessRecord) : MergedProcessRecord :=
  if s.pid = u.PID then
    { s with DecUtil := u.DecUtil, EncUtil := u.EncUtil, MemUtil := u.MemUtil, SmUtil := u.SmUtil }
  else s

/-- The merge of `main.go` lines 253-268 with the index-aligned memory
values carried along: `memRecords` is the list of `(pid, usedMemoryBytes)`
pairs returned by the graphics-process accounting call. -/
def merge (memRecords : List (Nat × Nat)) (procUtil : List ProcessUtilization) :
    List MergedProcessRecord :=
  let storage := memRecords.map (fun pm => ⟨pm.1, pm.2, 0, 0, 0, 0⟩)
  procUtil.foldl (fun st u => if u.PID ≠ 0 then st.map (mergedOverwrite u) else st) storage

/-- Projection of a merged record back to a bare storage row. -/
def toStorageRow (r : MergedProcessRecord) : ProcessUtilization :=
  ⟨r.pid, r.DecUtil, r.EncUtil, r.MemUtil, r.SmUtil⟩

/-- The dynamic device status returned by `dev.Status()` (the fields
dereferenced at `main.go` lines 216-224). -/
structure DevStatus where
  usedMemory : Nat
  gpuUtil : Nat
  power : Nat
  temperature : Nat
  encoder : Nat
  decoder : Nat
deriving Repr, DecidableEq

/-- Static device attributes from a successful `nvml.NewDevice` (lines
206-210).  `minor` stands for the minor number; `main.go` renders it with
`strconv.Itoa`, which is injective, so the number itself is used as the
label value. -/
structure DeviceInfo where
  minor : Nat
  uuid : Name
  model : Name
  memory : Nat
deriving Repr, DecidableEq

/-- What the capability layer answers for one device index.  Each field is
`none` when the corresponding call fails. -/
structure DeviceData where
  info : Option DeviceInfo
  status : Option DevStatus
  graphics : Option (List (Nat × Nat))
  procUtil : Option (List ProcessUtilization)

/-- The external world of one pass: the NVML device-count call, the
per-index device calls, and the OS process table (`ps.FindProcess(pid)`
followed by `.Executable()`; `none` models both a lookup error and a nil
process). -/
structure Env where
  deviceCount : Option Nat
  devices : Nat → DeviceData
  procName : Nat → Option Name

/-- Label tuple of the per-device gauges: `{minor_number, uuid, name}`. -/
structure DevLabels where
  minor : Nat
  uuid : Name
  name : Name
deriving Repr, DecidableEq

/-- Label tuple of the per-process gauges:
`{minor_number, pod_name, container, namespace}`. -/
structure ProcLabels where
  minor : Nat
  pod : Name
  container : Name
  nameSpace : Name
deriving Repr, DecidableEq

/-- `GaugeVec.WithLabelValues(...).Set(x)`: a gauge vector as an
association list of children keyed by the label tuple; a `Set` for an
existing tuple overwrites that child, otherwise a new child is added.
(The order in which children are listed is not significant.) -/
def vecSet {L : Type} [DecidableEq L] (v : List (L × Nat)) (l : L) (x : Nat) :
    List (L × Nat) :=
  if l ∈ v.map Prod.fst then v.map (fun p => if p.1 = l then (l, x) else p)
  else v ++ [(l, x)]

/-- Current value of a gauge-vector child, if present. -/
def vecLookup {L : Type} [DecidableEq L] : List (L × Nat) → L → Option Nat
  | [], _ => none
  | p :: rest, l => if p.1 = l then some p.2 else vecLookup rest l

/-- The collector's gauge state after a pass, together with whether the
`num_devices` gauge was set and sent (`main.go` lines 195-196).  The
`Reset()` calls at lines 177-188 make every vector start empty. -/
structure CollectorState where
  numDevices : Option Nat
  usedMemory : List (DevLabels × Nat)
  totalMemory : List (DevLabels × Nat)
  dutyCycle : List (DevLabels × Nat)
  powerUsage : List (DevLabels × Nat)
  temperature : List (DevLabels × Nat)
  encUtil : List (DevLabels × Nat)
  decUtil : List (DevLabels × Nat)
  pUsedMemory : List (ProcLabels × Nat)
  pDecUtil : List (ProcLabels × Nat)
  pEncUtil : List (ProcLabels × Nat)
  pMemUtil : List (ProcLabels × Nat)
  pSmUtil : List (ProcLabels × Nat)
deriving Repr, DecidableEq

/-- The state right after the resets, before anything is read. -/
def initState : CollectorState :=
  ⟨none, [], [], [], [], [], [], [], [], [], [], [], []⟩

/-- The ways `Collect` kills the pass (and with it the serving process):
dereferencing the result of a failed `dev.Status()` whose error is ignored
(line 214), `os.Exit(-1)` / nil-pointer dereference on a failed process
lookup (lines 232-237 and 270-274), and the slice-bounds panic in the name
parsing (lines 238-242 and 277-281). -/
inductive Crash where
  | statusDeref (idx : Nat)
  | processLookup (pid : Nat)
  | sliceBounds (pName : Name)
deriving Repr, DecidableEq

/-- A Go `for` loop whose body may crash: fold the step over the list,
propagating the first crash. -/
def foldE {σ α ε : Type} (f : σ → α → Except ε σ) : σ → List α → Except ε σ
  | s, [] => .ok s
  | s, a :: l =>
    match f s a with
    | .error e => .error e
    | .ok s' => foldE f s' l

/-- One iteration of the graphics-memory process loop (`main.go` lines
231-244): look the pid up in the OS process table, parse the display name,
and set the `pUsedMemory` child for the resulting label tuple to the
index-aligned memory value. -/
def procMemStep (env : Env) (minor : Nat) (st : CollectorState) (pm : Nat × Nat) :
    Except Crash CollectorState :=
  match env.procName pm.1 with
  | none => .error (.processLookup pm.1)
  | some pName =>
    match resolveName pName with
    | none => .error (.sliceBounds pName)
    | some wid =>
      .ok { st with
        pUsedMemory :=
          vecSet st.pUsedMemory ⟨minor, wid.pod, wid.container, wid.nameSpace⟩ pm.2 }

/-- One iteration of the utilization loop (`main.go` lines 269-286): look
the storage entry's pid up, parse the display name, and set the four
per-process utilization children. -/
def procUtilStep (env : Env) (minor : Nat) (st : CollectorState) (s : ProcessUtilization) :
    Except Crash CollectorState :=
  match env.procName s.PID with
  | none => .error (.processLookup s.PID)
  | some pName =>
    match resolveName pName with
    | none => .error (.sliceBounds pName)
    | some wid =>
      let l : ProcLabels := ⟨minor, wid.pod, wid.container, wid.nameSpace⟩
      .ok { st with
        pDecUtil := vecSet st.pDecUtil l s.DecUtil,
        pEncUtil := vecSet st.pEncUtil l s.EncUtil,
        pMemUtil := vecSet st.pMemUtil l s.MemUtil,
        pSmUtil := vecSet st.pSmUtil l s.SmUtil }

/-- `main.go` line 212: set the `totalMemory` child for the device. -/
def setTotalMemory (st : CollectorState) (labels : DevLabels) (m : Nat) : CollectorState :=
  { st with totalMemory := vecSet st.totalMemory labels m }

/-- `main.go` lines 216-224: set the six dynamic per-device children from a
(successfully dereferenced) `dev.Status()` result. -/
def setStatusVecs (st : CollectorState) (labels : DevLabels) (ds : DevStatus) : CollectorState :=
  { st with
    usedMemory := vecSet st.usedMemory labels ds.usedMemory,
    dutyCycle := vecSet st.dutyCycle labels ds.gpuUtil,
    powerUsage := vecSet st.powerUsage labels ds.power,
    temperature := vecSet st.temperature labels ds.temperature,
    encUtil := vecSet st.encUtil labels ds.encoder,
    decUtil := vecSet st.decUtil labels ds.decoder }

/-- `main.go` lines 226-287, the per-process part of one device: a failed
graphics-process read skips the rest of the device (`continue`, line 229);
otherwise the memory loop runs, then a failed utilization read skips the
rest (`continue`, line 251); otherwise the merge and the utilization loop
run. -/
def processPhase (env : Env) (minor : Nat) (dd : DeviceData) (st : CollectorState) :
    Except Crash CollectorState :=
  match dd.graphics with
  | none => .ok st
  | some graphics =>
    match foldE (procMemStep env minor) st graphics with
    | .error e => .error e
    | .ok st1 =>
      match dd.procUtil with
      | none => .ok st1
      | some pu =>
        foldE (procUtilStep env minor) st1 (mergeStorage (graphics.map Prod.fst) pu)

/-- The body of the device loop (`main.go` lines 199-287) for one index:
a failed handle lookup skips the device (`continue`, line 203); the total
memory is set; then a failed dynamic status read crashes, because the
error from `dev.Status()` at line 214 is never checked before the result's
fields are dereferenced. -/
def deviceStep (env : Env) (st : CollectorState) (i : Nat) : Except Crash CollectorState :=
  match (env.devices i).info with
  | none => .ok st
  | some info =>
    let labels : DevLabels := ⟨info.minor, info.uuid, info.model⟩
    let st1 := setTotalMemory st labels info.memory
    match (env.devices i).status with
    | none => .error (.statusDeref i)
    | some ds =>
      processPhase env info.minor (env.devices i) (setStatusVecs st1 labels ds)

/-- `Collector.Collect` (`main.go` lines 172-299): reset all vectors, read
the device count (on failure log and return with nothing emitted), else set
and send `num_devices` and run the device loop. -/
def collect (env : Env) : Except Crash CollectorState :=
  match env.deviceCount with
  | none => .ok initState
  | some n => foldE (deviceStep env) { initState with numDevices := some n } (List.range n)

/-- The per-device metric families forwarded to the exporter at the end of
the pass (`main.go` lines 289-293), tagged with their registered names from
`NewCollector`.  `encUtil`/`decUtil` do not appear here: lines 289-298
never call their `Collect`. -/
def exposedDeviceFamilies (s : CollectorState) : List (String × List (DevLabels × Nat)) :=
  [("memory_used_bytes", s.usedMemory),
   ("memory_total_bytes", s.totalMemory),
   ("duty_cycle", s.dutyCycle),
   ("power_usage_milliwatts", s.powerUsage),
   ("temperature_celsius", s.temperature)]

/-- The per-process metric families forwarded to the exporter
(`main.go` lines 294-298). -/
def exposedProcessFamilies (s : CollectorState) : List (String × List (ProcLabels × Nat)) :=
  [("process_graph", s.pUsedMemory),
   ("process_decutil", s.pDecUtil),
   ("process_encutil", s.pEncUtil),
   ("process_memutil", s.pMemUtil),
   ("process_smutil", s.pSmUtil)]

/-- Modelled from the spec: the `FanSpeedSupport` state machine of §4.2.
No fan-speed code exists in `src/main.go` (the exporter reads no fan
speed); the spec describes, for configurations exposing fan-speed
telemetry, states `{Enabled, Disabled}` with initial state `Enabled` and a
single one-way transition taken the first time a fan-speed read fails as
unsupported. -/
inductive FanSpeedSupport where
  | Enabled
  | Disabled
deriving Repr, DecidableEq

/-- Modelled from the spec: one device visit.  The read outcome supplied by
the capability layer is `none` for a `CapabilityUnsupported` failure and
`some v` for a successful read of value `v`.  The result is the new state,
whether a fan-speed read was attempted, and the fan-speed field of the
emitted sample (`none` = absent). -/
def fanVisit (s : FanSpeedSupport) (outcome : Option Nat) :
    FanSpeedSupport × Bool × Option Nat :=
  match s with
  | .Disabled => (.Disabled, false, none)
  | .Enabled =>
    match outcome with
    | none => (.Disabled, true, none)
    | some v => (.Enabled, true, some v)

/-- Modelled from the spec: the sequence of device visits over (a part of)
the process lifetime, across all devices and passes, threading the sticky
state.  Returns the per-visit `(attempted, fanSample)` observations and the
final state. -/
def fanTrace : FanSpeedSupport → List (Option Nat) → List (Bool × Option Nat) × FanSpeedSupport
  | s, [] => ([], s)
  | s, o :: rest =>
    match fanVisit s o with
    | (s', att, sample) =>
      match fanTrace s' rest with
      | (obs, sEnd) => ((att, sample) :: obs, sEnd)

/-! Concrete scenarios used to settle the claims. -/

/-- A device whose static attributes read successfully. -/
def demoInfo (m : Nat) : DeviceInfo := ⟨m, ['u'], ['g'], 1000⟩

/-- A successful dynamic status read (encoder utilization 7, decoder 8). -/
def demoStatus : DevStatus := ⟨10, 20, 30, 40, 7, 8⟩

/-- A device index every call for which fails. -/
def emptyDevice : DeviceData := ⟨none, none, none, none⟩

/-- One healthy device whose graphics list names pid 12345, in a world
with an empty OS process table: resolving the pid fails. -/
def envLookupFail : Env :=
  { deviceCount := some 1,
    devices := fun _ => ⟨some (demoInfo 0), some demoStatus, some [(12345, 100)], some []⟩,
    procName := fun _ => none }

/-- One healthy device whose single process has the display name `"x"`,
which carries neither delimiter. -/
def envNoDelims : Env :=
  { deviceCount := some 1,
    devices := fun _ => ⟨some (demoInfo 0), some demoStatus, some [(88, 100)], some []⟩,
    procName := fun _ => some ['x'] }

/-- The display name of testable property 2 of the spec. -/
def bogusName : Name := "bogus-name".toList

/-- One healthy device whose single process is named `"bogus-name"`. -/
def envBogus : Env :=
  { deviceCount := some 1,
    devices := fun _ => ⟨some (demoInfo 0), some demoStatus, some [(77, 100)], some []⟩,
    procName := fun _ => some bogusName }

/-- A world where the device-count call itself fails. -/
def envNoCount : Env :=
  { deviceCount := none, devices := fun _ => emptyDevice, procName := fun _ => none }

/-- One device with a valid handle whose `Status()` call fails. -/
def envStatusFail : Env :=
  { deviceCount := some 1,
    devices := fun _ => ⟨some (demoInfo 0), none, some [], some []⟩,
    procName := fun _ => none }

/-- Three devices, the middle one with a failing handle lookup. -/
def env6 : Env :=
  { deviceCount := some 3,
    devices := fun i =>
      if i = 1 then emptyDevice else ⟨some (demoInfo i), some demoStatus, some [], some []⟩,
    procName := fun _ => none }

/-- The pass result on `env6`: samples for devices 0 and 2 only, and
`num_devices` still 3. -/
def s6 : CollectorState :=
  { numDevices := some 3,
    usedMemory := [(⟨0, ['u'], ['g']⟩, 10), (⟨2, ['u'], ['g']⟩, 10)],
    totalMemory := [(⟨0, ['u'], ['g']⟩, 1000), (⟨2, ['u'], ['g']⟩, 1000)],
    dutyCycle := [(⟨0, ['u'], ['g']⟩, 20), (⟨2, ['u'], ['g']⟩, 20)],
    powerUsage := [(⟨0, ['u'], ['g']⟩, 30), (⟨2, ['u'], ['g']⟩, 30)],
    temperature := [(⟨0, ['u'], ['g']⟩, 40), (⟨2, ['u'], ['g']⟩, 40)],
    encUtil := [(⟨0, ['u'], ['g']⟩, 7), (⟨2, ['u'], ['g']⟩, 7)],
    decUtil := [(⟨0, ['u'], ['g']⟩, 8), (⟨2, ['u'], ['g']⟩, 8)],
    pUsedMemory := [], pDecUtil := [], pEncUtil := [], pMemUtil := [], pSmUtil := [] }

/-- One healthy device with no running processes. -/
def envHealthy : Env :=
  { deviceCount := some 1,
    devices := fun _ => ⟨some (demoInfo 0), some demoStatus, some [], some []⟩,
    procName := fun _ => none }

/-- The pass result on `envHealthy`: the encoder/decoder gauges are set. -/
def s8 : CollectorState :=
  { numDevices := some 1,
    usedMemory := [(⟨0, ['u'], ['g']⟩, 10)],
    totalMemory := [(⟨0, ['u'], ['g']⟩, 1000)],
    dutyCycle := [(⟨0, ['u'], ['g']⟩, 20)],
    powerUsage := [(⟨0, ['u'], ['g']⟩, 30)],
    temperature := [(⟨0, ['u'], ['g']⟩, 40)],
    encUtil := [(⟨0, ['u'], ['g']⟩, 7)],
    decUtil := [(⟨0, ['u'], ['g']⟩, 8)],
    pUsedMemory := [], pDecUtil := [], pEncUtil := [], pMemUtil := [], pSmUtil := [] }

/-- One device with two distinct pids (1 and 2) whose display names both
resolve to the workload identity `a@b/p`. -/
def envSameIdentity : Env :=
  { deviceCount := some 1,
    devices := fun _ =>
      ⟨some (demoInfo 0), some demoStatus, some [(1, 100), (2, 200)], some [⟨2, 9, 9, 9, 9⟩]⟩,
    procName := fun _ => some "a@b/p ".toList }

/-- The single label tuple both pids of `envSameIdentity` map to. -/
def tuple10 : ProcLabels := ⟨0, ['p'], ['a'], ['b']⟩

/-- The pass result on `envSameIdentity`: one child per per-process gauge,
holding the later-processed pid's values. -/
def s10 : CollectorState :=
  { numDevices := some 1,
    usedMemory := [(⟨0, ['u'], ['g']⟩, 10)],
    totalMemory := [(⟨0, ['u'], ['g']⟩, 1000)],
    dutyCycle := [(⟨0, ['u'], ['g']⟩, 20)],
    powerUsage := [(⟨0, ['u'], ['g']⟩, 30)],
    temperature := [(⟨0, ['u'], ['g']⟩, 40)],
    encUtil := [(⟨0, ['u'], ['g']⟩, 7)],
    decUtil := [(⟨0, ['u'], ['g']⟩, 8)],
    pUsedMemory := [(tuple10, 200)],
    pDecUtil := [(tuple10, 9)],
    pEncUtil := [(tuple10, 9)],
    pMemUtil := [(tuple10, 9)],
    pSmUtil := [(tuple10, 9)] }

/-- The memory-accounting list of testable property 1 of the spec. -/
def mem3 : List (Nat × Nat) := [(1, 100), (2, 200), (3, 300)]

/-- The utilization list of testable property 1 of the spec: a matching
entry for pid 2, a pid-0 sentinel, and an entry for a pid with no memory
record. -/
def util3 : List ProcessUtilization := [⟨2, 5, 6, 7, 8⟩, ⟨0, 1, 1, 1, 1⟩, ⟨4, 9, 9, 9, 9⟩]

/-- The merged record expected for pid 2. -/
def r2 : MergedProcessRecord := ⟨2, 200, 5, 6, 7, 8⟩

section Lemmas

variable {σ α ε : Type}

/-- Crash-propagating folds preserve any invariant their step preserves. -/
theorem foldE_inv (P : σ → Prop) (f : σ → α → Except ε σ)
    (hf : ∀ s a s', f s a = .ok s' → P s → P s') :
    ∀ (l : List α) (s s'), foldE f s l = .ok s' → P s → P s' := by
  intro l
  induction l with
  | nil =>
    intro s s' h hp
    simp only [foldE, Except.ok.injEq] at h
    exact h ▸ hp
  | cons a l ih =>
    intro s s' h hp
    rw [foldE] at h
    cases hfa : f s a with
    | error e => rw [hfa] at h; cases h
    | ok s1 => rw [hfa] at h; exact ih s1 s' h (hf s a s1 hfa hp)

variable {L : Type} [DecidableEq L]

/-- Setting an already-present label tuple leaves the key list unchanged. -/
theorem vecSet_keys_of_mem {v : List (L × Nat)} {l : L} (x : Nat)
    (h : l ∈ v.map Prod.fst) : (vecSet v l x).map Prod.fst = v.map Prod.fst := by
  unfold vecSet
  rw [if_pos h, List.map_map]
  refine List.map_congr_left ?_
  intro p _
  by_cases hp : p.1 = l
  · simp [hp]
  · simp [hp]

/-- `vecSet` keeps the label tuples pairwise distinct. -/
theorem vecSet_keys_nodup {v : List (L × Nat)} {l : L} {x : Nat}
    (h : (v.map Prod.fst).Nodup) : ((vecSet v l x).map Prod.fst).Nodup := by
  by_cases hm : l ∈ v.map Prod.fst
  · rw [vecSet_keys_of_mem x hm]; exact h
  · unfold vecSet
    rw [if_neg hm, List.map_append]
    simp only [List.map_cons, List.map_nil]
    rw [List.nodup_append]
    refine ⟨h, List.nodup_singleton l, ?_⟩
    intro a ha hal
    rw [List.mem_singleton] at hal
    subst hal
    exact hm ha

theorem vecLookup_map_update :
    ∀ (v : List (L × Nat)) (l : L) (x : Nat), l ∈ v.map Prod.fst →
      vecLookup (v.map (fun p => if p.1 = l then (l, x) else p)) l = some x := by
  intro v l x
  induction v with
  | nil => intro hm; cases hm
  | cons p rest ih =>
    intro hm
    by_cases hp : p.1 = l
    · simp [vecLookup, hp]
    · simp only [List.map_cons, List.mem_cons] at hm
      rcases hm with hm | hm
      · exact absurd hm.symm hp
      · simpa [vecLookup, hp] using ih hm

theorem vecLookup_append_new :
    ∀ (v : List (L × Nat)) (l : L) (x : Nat), l ∉ v.map Prod.fst →
      vecLookup (v ++ [(l, x)]) l = some x := by
  intro v l x
  induction v with
  | nil => intro _; simp [vecLookup]
  | cons p rest ih =>
    intro hm
    have hp : ¬ p.1 = l := by
      intro he; exact hm (by simp [he])
    have hm' : l ∉ rest.map Prod.fst := fun h => hm (by simp [h])
    simpa [vecLookup, hp] using ih hm'

/-- After a `Set`, the child for the written label tuple holds the written
value: a second `Set` for the same tuple overwrites the first. -/
theorem vecLookup_vecSet_self (v : List (L × Nat)) (l : L) (x : Nat) :
    vecLookup (vecSet v l x) l = some x := by
  unfold vecSet
  by_cases hm : l ∈ v.map Prod.fst
  · rw [if_pos hm]; exact vecLookup_map_update v l x hm
  · rw [if_neg hm]; exact vecLookup_append_new v l x hm

/-- A successful `procMemStep` only rewrites `pUsedMemory` (through one
`vecSet`). -/
theorem procMemStep_ok_shape {env : Env} {m : Nat} {st st' : CollectorState} {pm : Nat × Nat}
    (h : procMemStep env m st pm = .ok st') :
    ∃ l, st' = { st with pUsedMemory := vecSet st.pUsedMemory l pm.2 } := by
  unfold procMemStep at h
  split at h
  · cases h
  · split at h
    · cases h
    · injection h with h
      exact ⟨_, h.symm⟩

/-- A successful `procUtilStep` only rewrites the four per-process
utilization vectors (through one `vecSet` each, at a single tuple). -/
theorem procUtilStep_ok_shape {env : Env} {m : Nat} {st st' : CollectorState}
    {s : ProcessUtilization} (h : procUtilStep env m st s = .ok st') :
    ∃ l, st' = { st with
      pDecUtil := vecSet st.pDecUtil l s.DecUtil,
      pEncUtil := vecSet st.pEncUtil l s.EncUtil,
      pMemUtil := vecSet st.pMemUtil l s.MemUtil,
      pSmUtil := vecSet st.pSmUtil l s.SmUtil } := by
  unfold procUtilStep at h
  split at h
  · cases h
  · split at h
    · cases h
    · injection h with h
      exact ⟨_, h.symm⟩

/-- Invariants that ignore the device-level vectors and `numDevices` and
are preserved by `vecSet` survive the whole per-process phase. -/
theorem processPhase_inv (P : CollectorState → Prop)
    (hmem : ∀ (st : CollectorState) (l : ProcLabels) (x : Nat),
      P st → P { st with pUsedMemory := vecSet st.pUsedMemory l x })
    (hutil : ∀ (st : CollectorState) (l : ProcLabels) (u : ProcessUtilization),
      P st → P { st with
        pDecUtil := vecSet st.pDecUtil l u.DecUtil,
        pEncUtil := vecSet st.pEncUtil l u.EncUtil,
        pMemUtil := vecSet st.pMemUtil l u.MemUtil,
        pSmUtil := vecSet st.pSmUtil l u.SmUtil })
    {env : Env} {m : Nat} {dd : DeviceData} {st st' : CollectorState}
    (h : processPhase env m dd st = .ok st') (hp : P st) : P st' := by
  have hmemFold : ∀ (l : List (Nat × Nat)) (s s' : CollectorState),
      foldE (procMemStep env m) s l = .ok s' → P s → P s' := by
    refine foldE_inv P _ ?_
    intro s a s' hs hps
    obtain ⟨l, rfl⟩ := procMemStep_ok_shape hs
    exact hmem s l a.2 hps
  have hutilFold : ∀ (l : List ProcessUtilization) (s s' : CollectorState),
      foldE (procUtilStep env m) s l = .ok s' → P s → P s' := by
    refine foldE_inv P _ ?_
    intro s a s' hs hps
    obtain ⟨l, rfl⟩ := procUtilStep_ok_shape hs
    exact hutil s l a hps
  unfold processPhase at h
  split at h
  · injection h with h; exact h ▸ hp
  · rename_i graphics hg
    split at h
    · cases h
    · rename_i st1 hf
      have hp1 : P st1 := hmemFold graphics st st1 hf hp
      split at h
      · injection h with h; exact h ▸ hp1
      · exact hutilFold _ st1 st' h hp1

/-- Invariants that additionally survive the two device-level updates
survive a whole device iteration. -/
theorem deviceStep_inv (P : CollectorState → Prop)
    (htot : ∀ (st : CollectorState) (l : DevLabels) (m : Nat), P st → P (setTotalMemory st l m))
    (hstat : ∀ (st : CollectorState) (l : DevLabels) (ds : DevStatus),
      P st → P (setStatusVecs st l ds))
    (hmem : ∀ (st : CollectorState) (l : ProcLabels) (x : Nat),
      P st → P { st with pUsedMemory := vecSet st.pUsedMemory l x })
    (hutil : ∀ (st : CollectorState) (l : ProcLabels) (u : ProcessUtilization),
      P st → P { st with
        pDecUtil := vecSet st.pDecUtil l u.DecUtil,
        pEncUtil := vecSet st.pEncUtil l u.EncUtil,
        pMemUtil := vecSet st.pMemUtil l u.MemUtil,
        pSmUtil := vecSet st.pSmUtil l u.SmUtil })
    {env : Env} {st st' : CollectorState} {i : Nat}
    (h : deviceStep env st i = .ok st') (hp : P st) : P st' := by
  unfold deviceStep at h
  split at h
  · injection h with h; exact h ▸ hp
  · split at h
    · cases h
    · exact processPhase_inv P hmem hutil h (hstat _ _ _ (htot _ _ _ hp))

/-- Invariants established at the post-reset state survive a whole pass. -/
theorem collect_inv (P : CollectorState → Prop)
    (htot : ∀ (st : CollectorState) (l : DevLabels) (m : Nat), P st → P (setTotalMemory st l m))
    (hstat : ∀ (st : CollectorState) (l : DevLabels) (ds : DevStatus),
      P st → P (setStatusVecs st l ds))
    (hmem : ∀ (st : CollectorState) (l : ProcLabels) (x : Nat),
      P st → P { st with pUsedMemory := vecSet st.pUsedMemory l x })
    (hutil : ∀ (st : CollectorState) (l : ProcLabels) (u : ProcessUtilization),
      P st → P { st with
        pDecUtil := vecSet st.pDecUtil l u.DecUtil,
        pEncUtil := vecSet st.pEncUtil l u.EncUtil,
        pMemUtil := vecSet st.pMemUtil l u.MemUtil,
        pSmUtil := vecSet st.pSmUtil l u.SmUtil })
    {env : Env} {st' : CollectorState} (h : collect env = .ok st')
    (hinit : ∀ n, P { initState with numDevices := some n }) (hnone : P initState) : P st' := by
  unfold collect at h
  split at h
  · injection h with h; exact h ▸ hnone
  · rename_i n hc
    refine foldE_inv P _ ?_ _ _ _ h (hinit n)
    intro s a s' hs hps
    exact deviceStep_inv P htot hstat hmem hutil hs hps

/-- The effect of one utilization entry on one merged record (the body of
the `j`/`k` loops seen from a single storage row). -/
def perRecordStep (u : ProcessUtilization) (s : MergedProcessRecord) : MergedProcessRecord :=
  if u.PID ≠ 0 then mergedOverwrite u s else s

/-- The cumulative effect of the whole utilization list on one merged
record. -/
def perRecord (procUtil : List ProcessUtilization) (s : MergedProcessRecord) :
    MergedProcessRecord :=
  procUtil.foldl (fun s u => perRecordStep u s) s

theorem foldl_map_comm {β γ : Type} (g : γ → β → β) :
    ∀ (l : List γ) (st : List β),
      l.foldl (fun st u => st.map (g u)) st = st.map (fun s => l.foldl (fun s u => g u s) s) := by
  intro l
  induction l with
  | nil => intro st; simp
  | cons u us ih =>
    intro st
    simp only [List.foldl_cons]
    rw [ih (st.map (g u)), List.map_map]
    rfl

/-- The nested merge loops act independently on each storage row. -/
theorem merge_eq_map (memRecords : List (Nat × Nat)) (procUtil : List ProcessUtilization) :
    merge memRecords procUtil
      = memRecords.map (fun pm => perRecord procUtil ⟨pm.1, pm.2, 0, 0, 0, 0⟩) := by
  unfold merge
  have hstep : (fun (st : List MergedProcessRecord) (u : ProcessUtilization) =>
      if u.PID ≠ 0 then st.map (mergedOverwrite u) else st)
      = fun st u => st.map (perRecordStep u) := by
    funext st u
    unfold perRecordStep
    by_cases h : u.PID ≠ 0
    · simp [h]
    · simp [h]
  rw [hstep, foldl_map_comm, List.map_map]
  rfl

theorem perRecordStep_pid (u : ProcessUtilization) (s : MergedProcessRecord) :
    (perRecordStep u s).pid = s.pid ∧ (perRecordStep u s).mem = s.mem := by
  unfold perRecordStep mergedOverwrite
  split_ifs <;> exact ⟨rfl, rfl⟩

/-- Merging never changes a row's pid or memory value. -/
theorem perRecord_pid_mem (procUtil : List ProcessUtilization) :
    ∀ (s : MergedProcessRecord),
      (perRecord procUtil s).pid = s.pid ∧ (perRecord procUtil s).mem = s.mem := by
  induction procUtil with
  | nil => intro s; exact ⟨rfl, rfl⟩
  | cons u us ih =>
    intro s
    have hs := perRecordStep_pid u s
    have hu := ih (perRecordStep u s)
    exact ⟨hu.1.trans hs.1, hu.2.trans hs.2⟩

/-- The utilization fields of a merged row agree with some matching
nonzero-pid utilization entry, or the row is untouched when no entry
matches. -/
theorem perRecord_fields (s : MergedProcessRecord) :
    ∀ (procUtil : List ProcessUtilization),
      (∃ u ∈ procUtil, u.PID ≠ 0 ∧ u.PID = s.pid ∧
        (perRecord procUtil s).DecUtil = u.DecUtil ∧
        (perRecord procUtil s).EncUtil = u.EncUtil ∧
        (perRecord procUtil s).MemUtil = u.MemUtil ∧
        (perRecord procUtil s).SmUtil = u.SmUtil)
      ∨ ((∀ u ∈ procUtil, ¬(u.PID ≠ 0 ∧ u.PID = s.pid)) ∧ perRecord procUtil s = s) := by
  intro procUtil
  induction procUtil using List.reverseRecOn with
  | nil => right; exact ⟨by simp, rfl⟩
  | append_singleton us u ih =>
    have happ : perRecord (us ++ [u]) s = perRecordStep u (perRecord us s) := by
      unfold perRecord
      rw [List.foldl_append]
      rfl
    have hpid : (perRecord us s).pid = s.pid := (perRecord_pid_mem us s).1
    by_cases hmatch : u.PID ≠ 0 ∧ u.PID = s.pid
    · left
      refine ⟨u, by simp, hmatch.1, hmatch.2, ?_⟩
      have : perRecordStep u (perRecord us s)
          = { perRecord us s with
                DecUtil := u.DecUtil, EncUtil := u.EncUtil,
                MemUtil := u.MemUtil, SmUtil := u.SmUtil } := by
        unfold perRecordStep mergedOverwrite
        rw [if_pos hmatch.1, if_pos (hpid.trans hmatch.2.symm)]
      rw [happ, this]
      exact ⟨rfl, rfl, rfl, rfl⟩
    · have hfix : perRecordStep u (perRecord us s) = perRecord us s := by
        unfold perRecordStep mergedOverwrite
        by_cases h0 : u.PID ≠ 0
        · rw [if_pos h0, if_neg]
          intro he
          exact hmatch ⟨h0, (hpid ▸ he).symm⟩
        · rw [if_neg h0]
      rw [happ, hfix]
      rcases ih with ⟨u', hu', hrest⟩ | ⟨hall, heq⟩
      · left; exact ⟨u', List.mem_append_left _ hu', hrest⟩
      · right
        refine ⟨?_, heq⟩
        intro v hv
        rcases List.mem_append.mp hv with hv | hv
        · exact hall v hv
        · rw [List.mem_singleton] at hv
          exact hv ▸ hmatch

/-- The row-level step commutes with forgetting the memory value, so the
memory-carrying `merge` projects onto the verbatim `mergeStorage` of
`main.go` lines 253-268. -/
theorem toStorageRow_perRecordStep (u : ProcessUtilization) (s : MergedProcessRecord) :
    toStorageRow (perRecordStep u s)
      = (if u.PID ≠ 0 then utilOverwrite u (toStorageRow s) else toStorageRow s) := by
  unfold perRecordStep mergedOverwrite utilOverwrite toStorageRow
  by_cases h0 : u.PID ≠ 0
  · rw [if_pos h0, if_pos h0]
    by_cases hp : s.pid = u.PID
    · rw [if_pos hp]
      simp [hp]
    · rw [if_neg hp]
      simp [hp]
  · rw [if_neg h0, if_neg h0]

theorem merge_projects (memRecords : List (Nat × Nat)) (procUtil : List ProcessUtilization) :
    (merge memRecords procUtil).map toStorageRow
      = mergeStorage (memRecords.map Prod.fst) procUtil := by
  have hrow : ∀ (pu : List ProcessUtilization) (s : MergedProcessRecord),
      toStorageRow (perRecord pu s)
        = pu.foldl (fun s u => if u.PID ≠ 0 then utilOverwrite u s else s) (toStorageRow s) := by
    intro pu
    induction pu with
    | nil => intro s; rfl
    | cons u us ih =>
      intro s
      have : perRecord (u :: us) s = perRecord us (perRecordStep u s) := rfl
      rw [this, ih (perRecordStep u s), toStorageRow_perRecordStep]
      rfl
  have hstepU : (fun (st : List ProcessUtilization) (u : ProcessUtilization) =>
      if u.PID ≠ 0 then st.map (utilOverwrite u) else st)
      = fun st u => st.map (fun s => if u.PID ≠ 0 then utilOverwrite u s else s) := by
    funext st u
    by_cases h : u.PID ≠ 0
    · simp [h]
    · simp [h]
  unfold mergeStorage
  rw [merge_eq_map, hstepU, foldl_map_comm]
  simp only [List.map_map]
  refine List.map_congr_left ?_
  intro pm _
  simp only [Function.comp]
  rw [hrow]
  rfl

theorem indexOfChar_append (c : Char) :
    ∀ (l₁ l₂ : Name), (∀ x ∈ l₁, x ≠ c) →
      indexOfChar c (l₁ ++ c :: l₂) = some l₁.length := by
  intro l₁
  induction l₁ with
  | nil => intro l₂ _; simp [indexOfChar]
  | cons a l ih =>
    intro l₂ h
    have ha : ¬ a = c := h a (List.mem_cons_self a l)
    have hrest := ih l₂ (fun x hx => h x (List.mem_cons_of_mem a hx))
    simp [indexOfChar, ha, hrest]

/-- Slicing a list at the exact boundaries of its middle part. -/
theorem goSlice_append (l₁ l₂ l₃ : Name) :
    goSlice (l₁ ++ l₂ ++ l₃) ((l₁.length : Nat) : Int) ((l₁.length + l₂.length : Nat) : Int)
      = some l₂ := by
  unfold goSlice
  rw [if_pos]
  · have hsub : ((l₁.length + l₂.length : Nat) : Int) - ((l₁.length : Nat) : Int)
        = ((l₂.length : Nat) : Int) := by push_cast; ring
    rw [hsub, Int.toNat_natCast, Int.toNat_natCast, List.append_assoc, List.drop_left,
      List.take_left]
  · refine ⟨by positivity, by push_cast; omega, ?_⟩
    simp only [List.length_append]
    push_cast
    omega

theorem trimSpaces_concat_space (xs : Name) : trimSpaces (xs ++ [' ']) = trimSpaces xs := by
  unfold trimSpaces
  rw [List.reverse_append]
  simp [List.dropWhile_cons]

theorem goSlice_append_gen (l₁ l₂ l₃ s : Name) (lo hi : Int)
    (hs : s = l₁ ++ l₂ ++ l₃)
    (hlo : lo = ((l₁.length : Nat) : Int)) (hhi : hi = ((l₁.length + l₂.length : Nat) : Int)) :
    goSlice s lo hi = some l₂ := by
  subst hs; subst hlo; subst hhi
  exact goSlice_append l₁ l₂ l₃

/-- On a name of the convention form `<container>@<namespace>/<pod> `
(first `@` ends the container, first `/` ends the namespace, trailing
space), the parsing of `main.go` lines 238-242 succeeds and returns the
three parts, the pod part taken as the text after the first `/` with
surrounding spaces trimmed. -/
theorem resolve_conforming (c ns pod : Name)
    (h1 : '@' ∉ c) (h2 : '/' ∉ c) (h3 : '/' ∉ ns) :
    resolveName (c ++ '@' :: (ns ++ '/' :: (pod ++ [' '])))
      = some ⟨c, ns, trimSpaces (pod ++ [' '])⟩ := by
  have hat : indexOfChar '@' (c ++ '@' :: (ns ++ '/' :: (pod ++ [' ']))) = some c.length :=
    indexOfChar_append '@' c _ (fun x hx => by rintro rfl; exact h1 hx)
  have hshape : c ++ '@' :: (ns ++ '/' :: (pod ++ [' ']))
      = (c ++ '@' :: ns) ++ '/' :: (pod ++ [' ']) := by
    simp [List.append_assoc]
  have hslash : indexOfChar '/' (c ++ '@' :: (ns ++ '/' :: (pod ++ [' '])))
      = some (c.length + 1 + ns.length) := by
    rw [hshape]
    rw [indexOfChar_append '/' (c ++ '@' :: ns) _ ?hmem]
    case hmem =>
      intro x hx
      rcases List.mem_append.mp hx with hx | hx
      · rintro rfl; exact h2 hx
      · rcases List.mem_cons.mp hx with hx | hx
        · rintro rfl; cases hx
        · rintro rfl; exact h3 hx
    · congr 1
      simp [List.length_append]
      omega
  have hgoat : goIndex (c ++ '@' :: (ns ++ '/' :: (pod ++ [' ']))) '@' = (c.length : Int) := by
    unfold goIndex; rw [hat]
  have hgoslash : goIndex (c ++ '@' :: (ns ++ '/' :: (pod ++ [' ']))) '/'
      = ((c.length + 1 + ns.length : Nat) : Int) := by
    unfold goIndex; rw [hslash]
  have hsl1 : goSlice (c ++ '@' :: (ns ++ '/' :: (pod ++ [' ']))) 0 (c.length : Int)
      = some c := by
    refine goSlice_append_gen [] c ('@' :: (ns ++ '/' :: (pod ++ [' ']))) _ _ _ ?_ ?_ ?_
    · simp
    · simp
    · simp
  have hsl2 : goSlice (c ++ '@' :: (ns ++ '/' :: (pod ++ [' '])))
      ((c.length : Int) + 1) ((c.length + 1 + ns.length : Nat) : Int) = some ns := by
    refine goSlice_append_gen (c ++ ['@']) ns ('/' :: (pod ++ [' '])) _ _ _ ?_ ?_ ?_
    · simp
    · simp [List.length_append]
    · simp [List.length_append]
  have hsl3 : goSlice (c ++ '@' :: (ns ++ '/' :: (pod ++ [' '])))
      (((c.length + 1 + ns.length : Nat) : Int) + 1)
      (((c ++ '@' :: (ns ++ '/' :: (pod ++ [' ']))).length : Int) - 1) = some pod := by
    refine goSlice_append_gen (c ++ '@' :: ns ++ ['/']) pod [' '] _ _ _ ?_ ?_ ?_
    · simp
    · simp [List.length_append]
      omega
    · simp [List.length_append]
      omega
  unfold resolveName
  rw [hgoat, hgoslash]
  dsimp only
  rw [hsl1, hsl2, hsl3]
  simp [trimSpaces_concat_space]

/-- Once `Disabled`, every remaining visit attempts no read and emits no
fan-speed field, and the state never leaves `Disabled`. -/
theorem fanTrace_disabled (outcomes : List (Option Nat)) :
    fanTrace .Disabled outcomes = (outcomes.map (fun _ => (false, none)), .Disabled) := by
  induction outcomes with
  | nil => rfl
  | cons o rest ih => simp [fanTrace, fanVisit, ih]

theorem fanTrace_append (p q : List (Option Nat)) (s : FanSpeedSupport) :
    fanTrace s (p ++ q)
      = ((fanTrace s p).1 ++ (fanTrace (fanTrace s p).2 q).1, (fanTrace (fanTrace s p).2 q).2) := by
  induction p generalizing s with
  | nil => simp [fanTrace]
  | cons o rest ih =>
    cases hv : fanVisit s o with
    | mk s' pr =>
      cases pr with
      | mk att sample => simp [fanTrace, hv, ih]

end Lemmas

/-! The claims. -/

/-- C1: the claim says a failed OS-process lookup (or a failed identity
resolution) for one process record skips only that record and never aborts
the device, the pass, or the serving process.  The code does the opposite:
on a lookup failure it dies (`os.Exit(-1)` at lines 236/273, or the
nil-pointer dereference of `p` at line 233, which even precedes the error
check), and on an unresolvable name it panics in the slice expressions.
Both scenarios below therefore abort the whole pass with a crash instead
of producing a snapshot with that record skipped. -/
theorem record_failure_kills_process :
    collect envLookupFail = .error (.processLookup 12345)
    ∧ collect envNoDelims = .error (.sliceBounds ['x']) :=
  ⟨rfl, rfl⟩

/-- C2: the claim says a display name missing `@` or `/` (or with them out
of order) is rejected as `MalformedIdentityError` with no out-of-range
slice.  The code has no such error path: `strings.Index` returns `-1` for
`"bogus-name"` and `pName[0:-1]` is an out-of-range slice (a Go panic,
modelled by `Crash.sliceBounds`), killing the pass.  The spec itself flags
this as a defect of the convention-parsing code (§9). -/
theorem malformed_name_slice_panic :
    resolveName bogusName = none
    ∧ collect envBogus = .error (.sliceBounds bogusName) :=
  ⟨rfl, rfl⟩

/-- C3 counterexample: the claim promises, for every pair of input lists,
exactly one output record per distinct pid present in `memRecords`; but
the code allocates one storage row per entry, so a duplicated pid in
`memRecords` yields two records with the same pid. -/
theorem merge_duplicate_pid_two_records :
    ¬ (((merge [(1, 100), (1, 200)] []).map MergedProcessRecord.pid).Nodup) := by
  decide

/-- C3 (amended): `merge` returns exactly one record per entry of
`memRecords` (hence one per distinct pid whenever the pids are pairwise
distinct), preserving order and memory values; a record's utilization
fields equal those of a matching nonzero-pid `utilRecords` entry when one
exists and are all zero when none does; `utilRecords` entries with pid 0
or with a pid absent from `memRecords` contribute no output row (the
output is exactly one row per `memRecords` entry). -/
theorem merge_characterization (memRecords : List (Nat × Nat))
    (procUtil : List ProcessUtilization) :
    ((merge memRecords procUtil).map (fun r => (r.pid, r.mem)) = memRecords)
    ∧ (∀ r ∈ merge memRecords procUtil,
        ((∃ u ∈ procUtil, u.PID ≠ 0 ∧ u.PID = r.pid) →
          ∃ u ∈ procUtil, u.PID ≠ 0 ∧ u.PID = r.pid ∧ r.DecUtil = u.DecUtil
            ∧ r.EncUtil = u.EncUtil ∧ r.MemUtil = u.MemUtil ∧ r.SmUtil = u.SmUtil)
        ∧ ((∀ u ∈ procUtil, ¬(u.PID ≠ 0 ∧ u.PID = r.pid)) →
          r.DecUtil = 0 ∧ r.EncUtil = 0 ∧ r.MemUtil = 0 ∧ r.SmUtil = 0)) := by
  constructor
  · conv_rhs => rw [← List.map_id memRecords]
    rw [merge_eq_map, List.map_map]
    refine List.map_congr_left ?_
    intro pm _
    simp only [Function.comp, id]
    obtain ⟨hp, hm⟩ := perRecord_pid_mem procUtil ⟨pm.1, pm.2, 0, 0, 0, 0⟩
    rw [hp, hm]
  · intro r hr
    rw [merge_eq_map] at hr
    obtain ⟨pm, _, rfl⟩ := List.mem_map.mp hr
    have hpid : (perRecord procUtil ⟨pm.1, pm.2, 0, 0, 0, 0⟩).pid = pm.1 :=
      (perRecord_pid_mem procUtil _).1
    rcases perRecord_fields ⟨pm.1, pm.2, 0, 0, 0, 0⟩ procUtil with
      ⟨u, hu, h0, hup, hf⟩ | ⟨hnone, heqs⟩
    · constructor
      · intro _
        exact ⟨u, hu, h0, by rw [hpid]; exact hup, hf⟩
      · intro hall
        exact absurd ⟨h0, hup.trans hpid.symm⟩ (hall u hu)
    · constructor
      · rintro ⟨u, hu, h0, hup⟩
        exact absurd ⟨h0, hup.trans hpid⟩ (hnone u hu)
      · intro _
        rw [heqs]
        exact ⟨rfl, rfl, rfl, rfl⟩

/-- Witness for C3's theorem at the spec's own example (testable property
1): pid 2's record carries the matching utilization entry. -/
theorem merge_characterization_witness :
    (r2 ∈ merge mem3 util3)
    ∧ (((∃ u ∈ util3, u.PID ≠ 0 ∧ u.PID = r2.pid) →
          ∃ u ∈ util3, u.PID ≠ 0 ∧ u.PID = r2.pid ∧ r2.DecUtil = u.DecUtil
            ∧ r2.EncUtil = u.EncUtil ∧ r2.MemUtil = u.MemUtil ∧ r2.SmUtil = u.SmUtil)
        ∧ ((∀ u ∈ util3, ¬(u.PID ≠ 0 ∧ u.PID = r2.pid)) →
          r2.DecUtil = 0 ∧ r2.EncUtil = 0 ∧ r2.MemUtil = 0 ∧ r2.SmUtil = 0)) :=
  ⟨by decide, (merge_characterization mem3 util3).2 r2 (by decide)⟩

/-- C4 counterexample: the claim says a failed device-count read yields an
empty snapshot with `numDevices = 0`; in the code the `num_devices` gauge
is neither set nor sent on that path (the `return` at line 193 precedes
lines 195-196), so the scrape carries no `num_devices` sample at all
rather than a 0-valued one. -/
theorem count_failure_no_numDevices_sample :
    collect envNoCount = .ok initState ∧ ¬ initState.numDevices = some 0 :=
  ⟨rfl, by decide⟩

/-- C4 (amended): if device-count retrieval fails, `Collect` aborts the
pass immediately and yields an empty snapshot — no device entries, no
process entries, and no `num_devices` sample (rather than a 0-valued one)
— performing no per-device reads: the result is `initState` for every
environment with a failing count, whatever its per-device data. -/
theorem count_failure_empty_snapshot (env : Env) (h : env.deviceCount = none) :
    collect env = .ok initState := by
  unfold collect
  rw [h]

/-- Witness for C4's theorem on a concrete failing-count environment. -/
theorem count_failure_empty_snapshot_witness :
    envNoCount.deviceCount = none ∧ collect envNoCount = .ok initState :=
  ⟨rfl, count_failure_empty_snapshot envNoCount rfl⟩

/-- C5: the claim says a failure of any one dynamic status field is logged
and only that field is omitted, other fields still being emitted.  The
code ignores the error of `dev.Status()` at line 214 entirely and
immediately dereferences the result's fields (lines 216-224), so a failed
dynamic status read crashes the pass (nil-pointer dereference) instead of
omitting a field. -/
theorem status_error_ignored_crashes :
    collect envStatusFail = .error (.statusDeref 0) :=
  rfl

/-- C6: a device index whose handle lookup fails is skipped entirely — the
device iteration leaves the collector state untouched and continues (the
step returns `ok` with the unchanged state) — while the exported
`num_devices` value still equals the full enumerated count. -/
theorem handle_failure_device_skipped (env : Env) (st : CollectorState) (i n : Nat)
    (h : (env.devices i).info = none) (hn : env.deviceCount = some n) :
    deviceStep env st i = .ok st
    ∧ ∀ s, collect env = .ok s → s.numDevices = some n := by
  constructor
  · unfold deviceStep
    rw [h]
  · intro s hs
    unfold collect at hs
    split at hs
    · rename_i hc
      rw [hc] at hn
      cases hn
    · rename_i m hc
      rw [hc] at hn
      injection hn with hn
      subst hn
      refine foldE_inv (fun st => st.numDevices = some m) _ ?_ _ _ _ hs rfl
      intro s1 a s2 hstep hp
      exact deviceStep_inv (fun st => st.numDevices = some m)
        (fun _ _ _ hp => hp) (fun _ _ _ hp => hp) (fun _ _ _ hp => hp) (fun _ _ _ hp => hp)
        hstep hp

/-- Witness for C6's theorem: three devices with index 1 failing — the
step at index 1 is a no-op, and the full pass produces samples for
devices 0 and 2 only while `num_devices` is still 3. -/
theorem handle_failure_device_skipped_witness :
    deviceStep env6 initState 1 = .ok initState ∧ s6.numDevices = some 3 :=
  ⟨(handle_failure_device_skipped env6 initState 1 3 rfl rfl).1,
   (handle_failure_device_skipped env6 initState 1 3 rfl rfl).2 s6 rfl⟩

/-- C7: on every display name of the convention form
`<container>@<namespace>/<pod> ` — the first `@` ends the container part,
the first `/` ends the namespace part, trailing whitespace — resolution
returns the text before the first `@` as container, the text between the
first `@` and the first `/` as namespace, and the text after the first `/`
with surrounding spaces trimmed as pod. -/
theorem resolve_convention_parts (c ns pod : Name)
    (h1 : '@' ∉ c) (h2 : '/' ∉ c) (h3 : '/' ∉ ns) :
    resolveName (c ++ '@' :: (ns ++ '/' :: (pod ++ [' '])))
      = some ⟨c, ns, trimSpaces (pod ++ [' '])⟩ :=
  resolve_conforming c ns pod h1 h2 h3

/-- Witness for C7's theorem at the spec's example name
`"appA@team-ns/worker-7 "`. -/
theorem resolve_convention_parts_witness :
    (('@' ∉ ("appA".toList : Name)) ∧ ('/' ∉ ("appA".toList : Name))
      ∧ ('/' ∉ ("team-ns".toList : Name)))
    ∧ resolveName ("appA".toList ++ '@' :: ("team-ns".toList ++ '/' :: ("worker-7".toList ++ [' '])))
        = some ⟨"appA".toList, "team-ns".toList, trimSpaces ("worker-7".toList ++ [' '])⟩ :=
  ⟨⟨by decide, by decide, by decide⟩,
   resolve_convention_parts _ _ _ (by decide) (by decide) (by decide)⟩

/-- C8: the claim says the per-device encoder/decoder-utilization gauges
are part of the exposed metric surface whenever the dynamic status read
succeeds.  In the code the pass sets them (lines 223-224) — shown on
`envHealthy`, whose result state carries the children — but the final
forwarding block (lines 289-298) never calls their `Collect`, so the
exposed families are independent of the `encUtil`/`decUtil` state: no
encoder/decoder sample is ever handed to the exporter. -/
theorem enc_dec_gauges_not_exposed :
    (collect envHealthy = .ok s8
      ∧ s8.encUtil = [(⟨0, ['u'], ['g']⟩, 7)] ∧ s8.decUtil = [(⟨0, ['u'], ['g']⟩, 8)])
    ∧ (∀ (s : CollectorState) (a b : List (DevLabels × Nat)),
        exposedDeviceFamilies { s with encUtil := a, decUtil := b } = exposedDeviceFamilies s
        ∧ exposedProcessFamilies { s with encUtil := a, decUtil := b }
            = exposedProcessFamilies s) :=
  ⟨⟨rfl, rfl, rfl⟩, fun _ _ _ => ⟨rfl, rfl⟩⟩

/-- C9 (modelled from the spec, §4.2: `src/main.go` contains no fan-speed
code): once the first fan-speed read fails as unsupported while the
feature is still enabled, the state machine moves to `Disabled` and every
later device visit of the process lifetime — across all devices and all
subsequent passes — attempts no fan-speed read and emits no fan-speed
field; and from `Disabled` the machine never recovers. -/
theorem fan_speed_sticky_disable :
    (∀ (pre post : List (Option Nat)), (fanTrace .Enabled pre).2 = .Enabled →
      fanTrace .Enabled (pre ++ none :: post)
        = ((fanTrace .Enabled pre).1 ++ (true, none) :: post.map (fun _ => (false, none)),
            .Disabled))
    ∧ (∀ outcomes, fanTrace .Disabled outcomes
        = (outcomes.map (fun _ => (false, none)), .Disabled)) := by
  refine ⟨?_, fanTrace_disabled⟩
  intro pre post hpre
  rw [fanTrace_append pre (none :: post) .Enabled, hpre]
  simp [fanTrace, fanVisit, fanTrace_disabled]

/-- Witness for C9's theorem: one successful read, then an unsupported
read, then two further visits with no attempts and absent fields. -/
theorem fan_speed_sticky_disable_witness :
    ((fanTrace .Enabled [some 5]).2 = .Enabled)
    ∧ fanTrace .Enabled ([some 5] ++ none :: [some 7, none])
        = ((fanTrace .Enabled [some 5]).1
            ++ (true, none) :: [some 7, none].map (fun _ => (false, none)), .Disabled) :=
  ⟨rfl, fan_speed_sticky_disable.1 [some 5] [some 7, none] rfl⟩

/-- C10: per-process samples are keyed only by the label tuple
`(minor_number, pod_name, container, namespace)`, never by pid: every
snapshot a pass produces has pairwise-distinct tuples in each per-process
gauge vector; a `Set` for an already-present tuple overwrites the child's
value with the later one; and concretely, on a device where distinct pids
1 and 2 (memory 100 and 200) resolve to the same identity, the snapshot
holds a single child per per-process gauge carrying the later pid's
values. -/
theorem process_samples_keyed_by_label_tuple :
    (∀ (env : Env) (s : CollectorState), collect env = .ok s →
      (s.pUsedMemory.map Prod.fst).Nodup ∧ (s.pDecUtil.map Prod.fst).Nodup
        ∧ (s.pEncUtil.map Prod.fst).Nodup ∧ (s.pMemUtil.map Prod.fst).Nodup
        ∧ (s.pSmUtil.map Prod.fst).Nodup)
    ∧ (∀ (v : List (ProcLabels × Nat)) (l : ProcLabels) (x : Nat),
        vecLookup (vecSet v l x) l = some x)
    ∧ (collect envSameIdentity = .ok s10 ∧ s10.pUsedMemory = [(tuple10, 200)]
        ∧ s10.pSmUtil = [(tuple10, 9)]) := by
  refine ⟨?_, vecLookup_vecSet_self, rfl, rfl, rfl⟩
  intro env s hs
  refine collect_inv (fun st =>
      (st.pUsedMemory.map Prod.fst).Nodup ∧ (st.pDecUtil.map Prod.fst).Nodup
        ∧ (st.pEncUtil.map Prod.fst).Nodup ∧ (st.pMemUtil.map Prod.fst).Nodup
        ∧ (st.pSmUtil.map Prod.fst).Nodup)
    (fun _ _ _ hp => hp) (fun _ _ _ hp => hp)
    (fun st l x hp => ⟨vecSet_keys_nodup hp.1, hp.2.1, hp.2.2.1, hp.2.2.2.1, hp.2.2.2.2⟩)
    (fun st l u hp => ⟨hp.1, vecSet_keys_nodup hp.2.1, vecSet_keys_nodup hp.2.2.1,
      vecSet_keys_nodup hp.2.2.2.1, vecSet_keys_nodup hp.2.2.2.2⟩)
    hs
    (fun n => ⟨List.nodup_nil, List.nodup_nil, List.nodup_nil, List.nodup_nil, List.nodup_nil⟩)
    ⟨List.nodup_nil, List.nodup_nil, List.nodup_nil, List.nodup_nil, List.nodup_nil⟩

/-- Witness for C10's theorem at `envSameIdentity`. -/
theorem process_samples_keyed_by_label_tuple_witness :
    (collect envSameIdentity = .ok s10)
    ∧ ((s10.pUsedMemory.map Prod.fst).Nodup ∧ (s10.pDecUtil.map Prod.fst).Nodup
        ∧ (s10.pEncUtil.map Prod.fst).Nodup ∧ (s10.pMemUtil.map Prod.fst).Nodup
        ∧ (s10.pSmUtil.map Prod.fst).Nodup) :=
  ⟨rfl, process_samples_keyed_by_label_tuple.1 envSameIdentity s10 rfl⟩

end GpuExporter
